import Mathlib

/-!
Verification of the query-construction and response-normalization pipeline of
the oreilly-bookfinder repository (src/oreilly_bookfinder/api.py), as a shallow
embedding in Lean. Python dicts become association lists in insertion order,
pandas frames become an ordered column list with labelled rows, and the pandas
calls that can raise are modelled in the Except monad.
-/

set_option autoImplicit false

namespace Oreilly

/-- Calendar date with numeric year, month and day, standing for the Python
    datetime.date values that reach search_books already validated. -/
structure Date where
  year : Nat
  month : Nat
  day : Nat
deriving DecidableEq, Repr

/-- Left-pad the decimal digits of n with zeros up to the given width, as the
    strftime percent-directives do. -/
def padZeros (width : Nat) (n : Nat) : String :=
  let s := toString n
  String.mk (List.replicate (width - s.length) '0') ++ s

/-- Embeds format_date (api.py line 33): strftime with the pattern
    percent-Y dash percent-m dash percent-d, zero padded. -/
def format_date (d : Date) : String :=
  padZeros 4 d.year ++ "-" ++ padZeros 2 d.month ++ "-" ++ padZeros 2 d.day

/-- Embeds the DEFAULT_TOPICS constant (api.py lines 10 to 18). -/
def DEFAULT_TOPICS : List String :=
  ["data-science", "machine-learning", "artificial-intelligence",
   "data-analysis", "deep-learning", "statistics", "big-data"]

/-- Python str.join with a space separator over a list of clause strings. -/
def joinSp : List String → String
  | [] => ""
  | [x] => x
  | x :: xs => x ++ " " ++ joinSp xs

/-- Embeds the clause construction of search_books (api.py lines 118 to 136):
    free text when non-empty, quoted author when truthy, the two date filters,
    and the wildcard fallback when no clause was added. -/
def searchQueryClauses (query : String) (author : Option String)
    (published_after published_before : Option Date) : List String :=
  let sq : List String := []
  let sq := if query ≠ "" then sq ++ [query] else sq
  let sq := match author with
    | some a => if a ≠ "" then sq ++ ["author:\"" ++ a ++ "\""] else sq
    | none => sq
  let sq := match published_after with
    | some d => sq ++ ["issued:>" ++ format_date d]
    | none => sq
  let sq := match published_before with
    | some d => sq ++ ["issued:<" ++ format_date d]
    | none => sq
  if sq = [] then ["*"] else sq

/-- The params query value before topic filters are appended (api.py line 139). -/
def baseQueryString (query : String) (author : Option String)
    (published_after published_before : Option Date) : String :=
  joinSp (searchQueryClauses query author published_after published_before)

/-- Embeds the topic resolution of search_books (api.py lines 149 to 150): the
    built-in defaults replace the argument only when it is None and the
    use_default_topics flag is set. -/
def effectiveTopics (topics : Option (List String)) (use_default_topics : Bool) :
    Option (List String) :=
  if topics.isNone && use_default_topics then some DEFAULT_TOPICS else topics

/-- Embeds the final query string sent to the provider by search_books
    (api.py lines 117 to 155): the base clauses, then one topic clause per
    effective topic appended at the end when the effective topics are truthy. -/
def search_books_query (query : String) (author : Option String)
    (published_after published_before : Option Date)
    (topics : Option (List String)) (use_default_topics : Bool) : String :=
  let base := baseQueryString query author published_after published_before
  match effectiveTopics topics use_default_topics with
  | some l =>
      if !l.isEmpty then
        base ++ " " ++ joinSp (l.map (fun tp => "topic:" ++ tp))
      else base
  | none => base

/-- The topic clause block of the query: one clause per effective topic. -/
def topicClauses (topics : Option (List String)) (use_default_topics : Bool) :
    List String :=
  match effectiveTopics topics use_default_topics with
  | some l => l.map (fun tp => "topic:" ++ tp)
  | none => []

/-- The free-text, author and date clause groups as one concatenation, in the
    order the claim C5 lists them. -/
def clauseGroupsC5 (query : String) (author : Option String)
    (published_after published_before : Option Date) : List String :=
  (if query ≠ "" then [query] else []) ++
  (match author with
    | some a => if a ≠ "" then ["author:\"" ++ a ++ "\""] else []
    | none => []) ++
  (match published_after with
    | some d => ["issued:>" ++ format_date d]
    | none => []) ++
  (match published_before with
    | some d => ["issued:<" ++ format_date d]
    | none => [])

/-- Modelled from the claim C5 wording: the produced query string is the
    space-joined concatenation of the free-text, author and date clauses
    followed by the topic clauses, with no wildcard fallback mentioned. -/
def buildQuery_claimC5 (query : String) (author : Option String)
    (published_after published_before : Option Date)
    (topics : Option (List String)) (use_default_topics : Bool) : String :=
  joinSp (clauseGroupsC5 query author published_after published_before ++
    topicClauses topics use_default_topics)

/-- Modelled from the amended claim C5 wording: as the claim states it, except
    that the wildcard clause stands in when the free-text, author and date
    block is empty. -/
def buildQuery_specC5 (query : String) (author : Option String)
    (published_after published_before : Option Date)
    (topics : Option (List String)) (use_default_topics : Bool) : String :=
  let core := clauseGroupsC5 query author published_after published_before
  joinSp ((if core = [] then ["*"] else core) ++
    topicClauses topics use_default_topics)

theorem searchQueryClauses_eq_groups (q : String) (a : Option String)
    (pa pb : Option Date) :
    searchQueryClauses q a pa pb =
      if clauseGroupsC5 q a pa pb = [] then ["*"] else clauseGroupsC5 q a pa pb := by
  unfold searchQueryClauses clauseGroupsC5
  rcases a with _ | a' <;> rcases pa with _ | d1 <;> rcases pb with _ | d2 <;>
    by_cases hq : q = "" <;> simp [hq] <;>
    by_cases ha : a' = "" <;> simp [ha]

theorem searchQueryClauses_ne_nil (q : String) (a : Option String)
    (pa pb : Option Date) : searchQueryClauses q a pa pb ≠ [] := by
  rw [searchQueryClauses_eq_groups]
  split <;> simp_all

theorem joinSp_append (a b : List String) (ha : a ≠ []) (hb : b ≠ []) :
    joinSp (a ++ b) = joinSp a ++ " " ++ joinSp b := by
  induction a with
  | nil => exact absurd rfl ha
  | cons x xs ih =>
    cases xs with
    | nil =>
      cases b with
      | nil => exact absurd rfl hb
      | cons y ys => simp [joinSp]
    | cons z zs =>
      have h2 : joinSp ((x :: z :: zs) ++ b) = x ++ " " ++ joinSp ((z :: zs) ++ b) := by
        simp [joinSp]
      rw [h2, ih (by simp)]
      simp [joinSp, String.append_assoc]

theorem search_books_query_eq_specC5 (q : String) (a : Option String)
    (pa pb : Option Date) (t : Option (List String)) (u : Bool) :
    search_books_query q a pa pb t u = buildQuery_specC5 q a pa pb t u := by
  simp only [search_books_query, buildQuery_specC5, baseQueryString, topicClauses,
    ← searchQueryClauses_eq_groups]
  cases h : effectiveTopics t u with
  | none => simp
  | some l =>
    cases l with
    | nil => simp
    | cons x xs =>
      rw [joinSp_append _ _ (searchQueryClauses_ne_nil q a pa pb) (by simp)]
      simp

/-- Claim C2 counterexample: with an explicitly empty topics list and
    use_default_topics set, search_books builds no topic clause at all, so the
    seven built-in topic clauses the claim requires are absent. -/
theorem C2_counterexample :
    search_books_query ("") none none none (some []) true = "*" ∧
    "*" ≠ "* topic:data-science topic:machine-learning topic:artificial-intelligence topic:data-analysis topic:deep-learning topic:statistics topic:big-data" :=
  ⟨rfl, by decide⟩

/-- Claim C2 as amended: for every SearchFilter whose topics argument is absent
    (None, rather than an explicitly empty sequence) and whose useDefaultTopics
    flag is true, the produced query string carries exactly one topic clause for
    each of the 7 built-in topics, appended after all other clauses. -/
theorem C2_default_topics (query : String) (author : Option String)
    (pa pb : Option Date) :
    search_books_query query author pa pb none true =
      baseQueryString query author pa pb ++ " " ++
        "topic:data-science topic:machine-learning topic:artificial-intelligence topic:data-analysis topic:deep-learning topic:statistics topic:big-data" :=
  rfl

/-- Claim C5 counterexample: on the filter with empty free text, no author, no
    dates and one explicit topic, the code emits the wildcard clause before the
    topic clause, while the concatenation the claim describes carries no
    wildcard; the two disagree. -/
theorem C5_counterexample :
    search_books_query ("") none none none (some ["python"]) false = "* topic:python" ∧
    buildQuery_claimC5 ("") none none none (some ["python"]) false = "topic:python" ∧
    ("* topic:python" : String) ≠ "topic:python" :=
  ⟨rfl, rfl, by decide⟩

/-- Claim C5 as amended: for every SearchFilter the produced query string is the
    space-joined concatenation, in this order, of the free-text query verbatim
    when non-empty, the author clause with the value wrapped in double quotes
    unconditionally and without internal-quote escaping when a non-empty author
    is supplied, the issued after and issued before clauses with zero-padded ISO
    dates, with the literal wildcard replacing this whole block when it is
    empty, and finally one topic clause per effective topic; in particular the
    query python with author Joel Grus yields the quoted author clause followed
    by the topic clauses. -/
theorem C5_query_shape :
    (∀ (q : String) (a : Option String) (pa pb : Option Date)
      (t : Option (List String)) (u : Bool),
      search_books_query q a pa pb t u = buildQuery_specC5 q a pa pb t u) ∧
    search_books_query ("python") (some ("Joel Grus")) none none none true =
      "python author:\"Joel Grus\" topic:data-science topic:machine-learning topic:artificial-intelligence topic:data-analysis topic:deep-learning topic:statistics topic:big-data" :=
  ⟨search_books_query_eq_specC5, rfl⟩

/-- Claim C6: with empty free text, no author, no dates, and empty topics
    (either absent or an explicitly empty list) with use_default_topics false,
    the produced query string is exactly the wildcard. -/
theorem C6_wildcard (topics : Option (List String))
    (h : topics = none ∨ topics = some []) :
    search_books_query ("") none none none topics false = "*" := by
  rcases h with h | h <;> subst h <;> rfl

/-- Witness for C6 at the concrete filter with absent topics. -/
theorem C6_wildcard_witness :
    search_books_query ("") none none none none false = "*" :=
  C6_wildcard none (Or.inl rfl)

/-! Result normalization: JSON values, raw results as Python dicts, and the
pandas tabular structure built by search_books lines 163 to 178. -/

/-- JSON values as delivered by the provider; numbers are modelled as
    integers. -/
inductive JValue where
  | null
  | bool (b : Bool)
  | num (n : Int)
  | str (s : String)
  | arr (elems : List JValue)
  | obj (fields : List (String × JValue))
deriving Repr

/-- A raw result object: a Python dict with string keys in insertion order. -/
abbrev Record := List (String × JValue)

/-- A cell of the tabular structure; none models a pandas missing value. -/
abbrev Cell := Option JValue

/-- A row of the tabular structure: the cells labelled by their column, in
    column order. -/
abbrev Row := List (String × Cell)

/-- Tabular structure mirroring a pandas DataFrame: the ordered column list
    and one labelled row per result. -/
structure DataFrame where
  columns : List String
  rows : List Row
deriving Repr

/-- First binding of a key in an association list, mirroring a Python dict
    access. -/
def rlookup {α : Type} : List (String × α) → String → Option α
  | [], _ => none
  | kv :: rest, k => if kv.1 = k then some kv.2 else rlookup rest k

/-- Keys of a record in order. -/
def recKeys {α : Type} (r : List (String × α)) : List String := r.map Prod.fst

/-- Append a key when it is not yet present. -/
def insertNew (acc : List String) (k : String) : List String :=
  if k ∈ acc then acc else acc ++ [k]

/-- Union of the keys of a list of records in order of first appearance: the
    column set pandas derives from a list of dicts. -/
def unionKeys (rs : List Record) : List String :=
  rs.foldl (fun acc r => (recKeys r).foldl insertNew acc) []

/-- The labelled row a record contributes for a given column list: one cell
    per column, missing where the record lacks the key. -/
def recordToRow (cols : List String) (r : Record) : Row :=
  cols.map (fun c => (c, rlookup r c))

/-- Embeds the pd.DataFrame constructor over a list of records (api.py line
    169): columns are the union of the keys in first-seen order and a row
    missing a key gets a missing cell. -/
def toDataFrame (rs : List Record) : DataFrame :=
  ⟨unionKeys rs, rs.map (recordToRow (unionKeys rs))⟩

/-- Check for a JSON object. -/
def JValue.isObj : JValue → Bool
  | JValue.obj _ => true
  | _ => false

/-- Fields of a JSON object, empty for every other value. -/
def JValue.objFields : JValue → Record
  | JValue.obj kvs => kvs
  | _ => []

/-- Replace the value at an existing key or append a new binding, following
    Python dict update semantics. -/
def upsert (r : Record) (k : String) (v : JValue) : Record :=
  if (recKeys r).contains k then
    r.map (fun kv => if kv.1 = k then (k, v) else kv)
  else r ++ [(k, v)]

/-- Apply a dict update with every binding of the second record in order. -/
def updateAll (r : Record) (adds : Record) : Record :=
  adds.foldl (fun acc kv => upsert acc kv.1 kv.2) r

/-- Inner loop of the pandas nested_to_record helper below the top level:
    every key is prefixed with the parent name and a dot, object values
    recurse, and the results accumulate with dict update semantics. -/
def flattenItems (pre : String) : List (String × JValue) → Record → Record
  | [], acc => acc
  | (k, JValue.obj sub) :: rest, acc =>
      flattenItems pre rest (updateAll acc (flattenItems (pre ++ "." ++ k) sub []))
  | (k, v) :: rest, acc =>
      flattenItems pre rest (upsert acc (pre ++ "." ++ k) v)

/-- Remove every binding of a key. -/
def removeKey (r : Record) (k : String) : Record :=
  r.filter (fun kv => kv.1 ≠ k)

/-- Top level of the pandas nested_to_record helper: scalar and array values
    stay in place, an object value is removed and its flattened fields are
    appended at the end under dotted names. -/
def nestedGo : List (String × JValue) → Record → Record
  | [], acc => acc
  | (k, JValue.obj sub) :: rest, acc =>
      nestedGo rest (updateAll (removeKey acc k) (flattenItems k sub []))
  | (_, _) :: rest, acc => nestedGo rest acc

/-- Flatten one record the way json_normalize does through nested_to_record. -/
def nestedToRecord (d : Record) : Record :=
  nestedGo d d

/-- Check that a cell holds a JSON object. -/
def cellIsObj : Cell → Bool
  | some v => v.isObj
  | none => false

/-- Embeds pd.json_normalize over the values of one column (api.py line 174):
    every entry must be a dict, a missing, null or scalar entry raises
    AttributeError; the flat records then build a frame with the union of the
    flattened keys as columns. -/
def json_normalize (cells : List Cell) : Except String DataFrame :=
  if cells.all cellIsObj then
    Except.ok (toDataFrame (cells.map
      (fun c => nestedToRecord (JValue.objFields ((c.getD JValue.null))))))
  else Except.error ("AttributeError")

/-- Cell of the first row at a column, as df bracket col iloc zero reads it. -/
def DataFrame.row0Cell (df : DataFrame) (c : String) : Cell :=
  match df.rows with
  | [] => none
  | r :: _ => (rlookup r c).getD none

/-- Values of one column from top to bottom, as df bracket col tolist. -/
def DataFrame.colCells (df : DataFrame) (c : String) : List Cell :=
  df.rows.map (fun r => (rlookup r c).getD none)

/-- Embeds DataFrame.drop of one column (api.py line 178). -/
def DataFrame.dropColumn (df : DataFrame) (c : String) : DataFrame :=
  ⟨df.columns.filter (fun x => x ≠ c),
   df.rows.map (fun r => r.filter (fun kv => kv.1 ≠ c))⟩

/-- Embeds DataFrame.join on the shared range index (api.py line 178): it
    raises ValueError on overlapping column names and otherwise appends the
    columns of the second frame row by row. -/
def DataFrame.joinDF (a b : DataFrame) : Except String DataFrame :=
  if a.columns.any (fun c => b.columns.contains c) then
    Except.error ("ValueError")
  else Except.ok ⟨a.columns ++ b.columns, (a.rows.zip b.rows).map (fun p => p.1 ++ p.2)⟩

/-- Rename every column label with a function. -/
def DataFrame.renameCols (df : DataFrame) (f : String → String) : DataFrame :=
  ⟨df.columns.map f, df.rows.map (fun r => r.map (fun kv => (f kv.1, kv.2)))⟩

/-- One iteration of the flattening loop of search_books (api.py lines 172 to
    178) on a column whose first entry is a dict: normalize the column values,
    prefix the nested column names with the original name and an underscore,
    drop the original column and join the flattened columns at the end. -/
def processCol (df : DataFrame) (c : String) : Except String DataFrame :=
  match json_normalize (df.colCells c) with
  | Except.error e => Except.error e
  | Except.ok nested =>
      (df.dropColumn c).joinDF (nested.renameCols (fun sub => c ++ "_" ++ sub))

/-- The columns the flattening loop processes: those whose first-row entry is
    a dict. A dict in the first row forces object dtype, so the select_dtypes
    snapshot combined with the per-column iloc check reduces to this test, and
    processing one column never changes the entries of the others. -/
def flattenTargets (df : DataFrame) : List String :=
  df.columns.filter (fun c => cellIsObj (df.row0Cell c))

/-- Run the flattening loop left to right over the selected columns. -/
def flattenLoop : List String → DataFrame → Except String DataFrame
  | [], df => Except.ok df
  | c :: rest, df =>
      match processCol df c with
      | Except.error e => Except.error e
      | Except.ok df2 => flattenLoop rest df2

/-- Embeds the result normalization of search_books (api.py lines 163 to 178):
    an empty result list yields the empty frame, otherwise the frame over the
    raw results with every dict-in-first-row column flattened. -/
def normalize (results : List Record) : Except String DataFrame :=
  if results.isEmpty then Except.ok ⟨[], []⟩
  else
    let df := toDataFrame results
    flattenLoop (flattenTargets df) df

/-! Association list and key union lemmas. -/

theorem rlookup_eq_none_iff {α : Type} (r : List (String × α)) (k : String) :
    rlookup r k = none ↔ k ∉ recKeys r := by
  induction r with
  | nil => simp [rlookup, recKeys]
  | cons kv rest ih =>
    by_cases h : kv.1 = k <;> simp [rlookup, recKeys, h, ih]
    intro hk
    exact fun hkk => h hkk.symm

theorem rlookup_mem {α : Type} {r : List (String × α)} {k : String} {v : α}
    (h : rlookup r k = some v) : (k, v) ∈ r := by
  induction r with
  | nil => simp [rlookup] at h
  | cons kv rest ih =>
    by_cases hk : kv.1 = k
    · simp [rlookup, hk] at h
      subst hk h
      exact List.mem_cons_self kv rest
    · simp [rlookup, hk] at h
      exact List.mem_cons_of_mem kv (ih h)

theorem rlookup_map_pair {β : Type} (cols : List String) (f : String → β)
    {c : String} (h : c ∈ cols) :
    rlookup (cols.map (fun x => (x, f x))) c = some (f c) := by
  induction cols with
  | nil => simp at h
  | cons x rest ih =>
    by_cases hx : x = c
    · subst hx; simp [rlookup]
    · rcases List.mem_cons.mp h with h1 | h1
      · exact absurd h1.symm hx
      · simp [rlookup, hx, ih h1]

theorem rlookup_map_pair_none {β : Type} (cols : List String) (f : String → β)
    {c : String} (h : c ∉ cols) :
    rlookup (cols.map (fun x => (x, f x))) c = none := by
  induction cols with
  | nil => simp [rlookup]
  | cons x rest ih =>
    simp only [List.mem_cons, not_or] at h
    have hx : x ≠ c := fun hx => h.1 hx.symm
    simp [rlookup, hx, ih h.2]

theorem rlookup_append_left {α : Type} {l1 : List (String × α)} {k : String}
    (l2 : List (String × α)) (h : k ∈ recKeys l1) :
    rlookup (l1 ++ l2) k = rlookup l1 k := by
  induction l1 with
  | nil => simp [recKeys] at h
  | cons kv rest ih =>
    by_cases hk : kv.1 = k
    · simp [rlookup, hk]
    · simp only [recKeys, List.map_cons, List.mem_cons] at h
      rcases h with h | h
      · exact absurd h.symm hk
      · simp [rlookup, hk, ih h]

theorem rlookup_append_right {α : Type} {l1 : List (String × α)} {k : String}
    (l2 : List (String × α)) (h : k ∉ recKeys l1) :
    rlookup (l1 ++ l2) k = rlookup l2 k := by
  induction l1 with
  | nil => simp
  | cons kv rest ih =>
    simp only [recKeys, List.map_cons, List.mem_cons, not_or] at h
    have hx : kv.1 ≠ k := fun hx => h.1 hx.symm
    simp [rlookup, hx, ih h.2]

theorem rlookup_filter_ne {α : Type} (r : List (String × α)) {c c' : String}
    (h : c' ≠ c) :
    rlookup (r.filter (fun kv => kv.1 ≠ c)) c' = rlookup r c' := by
  induction r with
  | nil => simp
  | cons kv rest ih =>
    simp only [decide_not] at ih
    by_cases hc : kv.1 = c
    · have hne : kv.1 ≠ c' := fun hx => h (hx ▸ hc)
      have hcc : c ≠ c' := fun hx => h hx.symm
      simp [List.filter_cons, rlookup, hc, hne, hcc, ih]
    · simp [List.filter_cons, rlookup, hc, ih]

theorem mem_foldl_insertNew (l : List String) (acc : List String) (k : String) :
    k ∈ l.foldl insertNew acc ↔ k ∈ acc ∨ k ∈ l := by
  induction l generalizing acc with
  | nil => simp
  | cons x xs ih =>
    rw [List.foldl_cons, ih]
    unfold insertNew
    by_cases h : x ∈ acc
    · simp only [if_pos h, List.mem_cons]
      constructor
      · rintro (h1 | h1)
        · exact Or.inl h1
        · exact Or.inr (Or.inr h1)
      · rintro (h1 | h1 | h1)
        · exact Or.inl h1
        · exact Or.inl (h1 ▸ h)
        · exact Or.inr h1
    · simp only [if_neg h, List.mem_append, List.mem_singleton, List.mem_cons]
      tauto

theorem nodup_foldl_insertNew (l : List String) (acc : List String)
    (h : acc.Nodup) : (l.foldl insertNew acc).Nodup := by
  induction l generalizing acc with
  | nil => exact h
  | cons x xs ih =>
    rw [List.foldl_cons]
    apply ih
    unfold insertNew
    split
    · exact h
    · simp only [List.nodup_append, List.nodup_singleton, List.disjoint_singleton]
      exact ⟨h, trivial, by assumption⟩

theorem mem_unionKeys_aux (rs : List Record) (acc : List String) (k : String) :
    k ∈ rs.foldl (fun a r => (recKeys r).foldl insertNew a) acc ↔
      k ∈ acc ∨ ∃ r ∈ rs, k ∈ recKeys r := by
  induction rs generalizing acc with
  | nil => simp
  | cons r rest ih =>
    rw [List.foldl_cons, ih, mem_foldl_insertNew]
    simp [or_assoc]

theorem mem_unionKeys (rs : List Record) (k : String) :
    k ∈ unionKeys rs ↔ ∃ r ∈ rs, k ∈ recKeys r := by
  rw [unionKeys, mem_unionKeys_aux]
  simp

theorem unionKeys_nodup (rs : List Record) : (unionKeys rs).Nodup := by
  rw [unionKeys]
  generalize h : ([] : List String) = acc
  have hacc : acc.Nodup := h ▸ List.nodup_nil
  clear h
  induction rs generalizing acc with
  | nil => exact hacc
  | cons r rest ih => exact ih _ (nodup_foldl_insertNew _ _ hacc)

/-! Theorems for the normalization claims. -/

/-- Claim C1 counterexample: the key b appears only in the second raw result,
    yet the normalized table does carry a column b with a missing cell in the
    first row, because pandas builds the column set as the union of the keys of
    all rows rather than from the first row alone. -/
theorem C1_counterexample :
    Oreilly.normalize [[("a", JValue.num 1)], [("b", JValue.num 2)]] =
      Except.ok ⟨["a", "b"],
        [[("a", some (JValue.num 1)), ("b", none)],
         [("a", none), ("b", some (JValue.num 2))]]⟩ ∧
    (["a", "b"] : List String) ≠ ["a"] :=
  ⟨rfl, by decide⟩

/-- Claim C1 as amended: for every non-empty raw result sequence whose fields
    hold no objects (so that flattening leaves the frame unchanged), the column
    set and order of the normalized table is the union of the top-level keys of
    all rows in order of first appearance, so a key appearing only in a later
    row does become a column; each row keeps the value of every key it has and
    gets a missing cell at every column it lacks. -/
theorem C1_columns_union (rs : List Record) (hne : rs ≠ [])
    (hflat : ∀ r ∈ rs, ∀ kv ∈ r, JValue.isObj kv.2 = false) :
    Oreilly.normalize rs = Except.ok (toDataFrame rs) ∧
    (∀ k, k ∈ (toDataFrame rs).columns ↔ ∃ r ∈ rs, k ∈ recKeys r) ∧
    (toDataFrame rs).rows = rs.map (recordToRow (unionKeys rs)) ∧
    (∀ r ∈ rs, ∀ p ∈ recordToRow (unionKeys rs) r,
      p.2 = rlookup r p.1 ∧ (p.1 ∉ recKeys r → p.2 = none)) := by
  refine ⟨?_, fun k => mem_unionKeys rs k, rfl, ?_⟩
  · rcases rs with _ | ⟨r0, rest⟩
    · exact absurd rfl hne
    · have htarg : flattenTargets (toDataFrame (r0 :: rest)) = [] := by
        rw [flattenTargets, List.filter_eq_nil_iff]
        intro c hc
        have hc' : c ∈ unionKeys (r0 :: rest) := hc
        have hrow0 : DataFrame.row0Cell (toDataFrame (r0 :: rest)) c = rlookup r0 c := by
          simp only [DataFrame.row0Cell, toDataFrame, List.map_cons, recordToRow]
          rw [rlookup_map_pair (unionKeys (r0 :: rest)) (fun x => rlookup r0 x) hc']
          rfl
        rw [hrow0]
        cases h : rlookup r0 c with
        | none => simp [cellIsObj]
        | some v =>
          have hv := hflat r0 (List.mem_cons_self r0 rest) (c, v) (rlookup_mem h)
          simp [cellIsObj, hv]
      rw [Oreilly.normalize]
      simp only [List.isEmpty_cons, Bool.false_eq_true, if_false, htarg, flattenLoop]
  · intro r _ p hp
    simp only [recordToRow, List.mem_map] at hp
    obtain ⟨c, _, hpc⟩ := hp
    subst hpc
    exact ⟨rfl, fun hnk => (rlookup_eq_none_iff r c).mpr hnk⟩

/-- Witness for C1 as amended, at a sequence whose second row introduces a new
    key: the normalization succeeds and equals the union-shaped frame. -/
theorem C1_columns_union_witness :
    Oreilly.normalize [[("a", JValue.num 1)], [("b", JValue.num 2)]] =
      Except.ok (toDataFrame [[("a", JValue.num 1)], [("b", JValue.num 2)]]) :=
  (C1_columns_union [[("a", JValue.num 1)], [("b", JValue.num 2)]]
    (by simp) (by decide)).1

/-- Claim C8: an empty raw result sequence normalizes to the empty table with no
    rows and no columns, and raises no error. -/
theorem C8_empty_results : Oreilly.normalize [] = Except.ok ⟨[], []⟩ := rfl

/-- Claim C3 counterexample: the second raw result lacks the object at key k
    entirely, and normalization raises AttributeError out of json_normalize
    instead of degrading to a null cell as the claim states. -/
theorem C3_counterexample :
    Oreilly.normalize [[("k", JValue.obj [("a", JValue.num 1)])], []] =
      Except.error ("AttributeError") := rfl

/-- Claim C4 counterexample: key k holds an object in the first row and a
    scalar in the second; normalization raises AttributeError instead of
    degrading to null cells, so the transform is not total. -/
theorem C4_counterexample :
    Oreilly.normalize
        [[("k", JValue.obj [("a", JValue.num 1)])], [("k", JValue.num 5)]] =
      Except.error ("AttributeError") := rfl

/-! Analysis of one flattening step on a frame built from records. -/

/-- Fields of the object a record holds at a key. -/
def objAt (r : Record) (c : String) : Record :=
  JValue.objFields ((rlookup r c).getD JValue.null)

/-- The flat record json_normalize derives from the object a record holds at
    a key. -/
def flatAt (r : Record) (c : String) : Record :=
  nestedToRecord (objAt r c)

/-- The flattened subcolumn names for one column: the union of the flattened
    keys of the objects of all rows, in first-seen order. -/
def subCols (rs : List Record) (c : String) : List String :=
  unionKeys (rs.map (fun r => flatAt r c))

/-- The prefixed column names one flattened column contributes. -/
def newCols (rs : List Record) (c : String) : List String :=
  (subCols rs c).map (fun s => c ++ "_" ++ s)

theorem rlookup_isSome_mem {α : Type} {r : List (String × α)} {k : String}
    {v : α} (h : rlookup r k = some v) : k ∈ recKeys r := by
  have := rlookup_mem h
  exact List.mem_map.mpr ⟨(k, v), this, rfl⟩

theorem colCells_toDataFrame (rs : List Record) {c : String}
    (hc : c ∈ unionKeys rs) :
    DataFrame.colCells (toDataFrame rs) c = rs.map (fun r => rlookup r c) := by
  simp only [DataFrame.colCells, toDataFrame, List.map_map]
  refine List.map_congr_left ?_
  intro r _
  simp only [Function.comp_apply, recordToRow]
  rw [rlookup_map_pair _ (fun x => rlookup r x) hc]
  rfl

theorem recordToRow_filter (cols : List String) (r : Record) (c : String) :
    (recordToRow cols r).filter (fun kv => kv.1 ≠ c) =
      recordToRow (cols.filter (fun x => x ≠ c)) r := by
  simp only [recordToRow, List.filter_map]
  rfl

/-- A flattening step leaves alone the entries of every other column that does
    not collide with the generated names. -/
theorem rlookup_flatten_row {c c' : String} (h : c' ≠ c) (row nrow : Row)
    (hn : c' ∉ recKeys nrow) :
    rlookup (row.filter (fun kv => kv.1 ≠ c) ++ nrow) c' = rlookup row c' := by
  by_cases hm : c' ∈ recKeys (row.filter (fun kv => kv.1 ≠ c))
  · rw [rlookup_append_left _ hm, rlookup_filter_ne _ h]
  · rw [rlookup_append_right _ hm, (rlookup_eq_none_iff _ _).mpr hn,
      ← rlookup_filter_ne row h, (rlookup_eq_none_iff _ _).mpr hm]

/-- One flattening step on a frame built from records, under the conditions
    that make it succeed: the column exists, every row holds an object there,
    and the generated names are fresh. -/
theorem processCol_toDataFrame (rs : List Record) (c : String)
    (hc : c ∈ unionKeys rs)
    (hall : ∀ r ∈ rs, cellIsObj (rlookup r c) = true)
    (hfresh : ∀ n ∈ newCols rs c, n ∉ unionKeys rs) :
    processCol (toDataFrame rs) c =
      Except.ok
        ⟨(unionKeys rs).filter (fun x => x ≠ c) ++ newCols rs c,
         rs.map (fun r =>
           recordToRow ((unionKeys rs).filter (fun x => x ≠ c)) r ++
           (subCols rs c).map (fun s => (c ++ "_" ++ s, rlookup (flatAt r c) s)))⟩ := by
  have hcells : DataFrame.colCells (toDataFrame rs) c = rs.map (fun r => rlookup r c) :=
    colCells_toDataFrame rs hc
  have hallb : (rs.map (fun r => rlookup r c)).all cellIsObj = true := by
    rw [List.all_eq_true]
    intro x hx
    obtain ⟨r, hr, hxr⟩ := List.mem_map.mp hx
    exact hxr ▸ hall r hr
  have hnorm : json_normalize (DataFrame.colCells (toDataFrame rs) c) =
      Except.ok (toDataFrame (rs.map (fun r => flatAt r c))) := by
    rw [hcells, json_normalize, if_pos hallb, List.map_map]
    rfl
  rw [processCol, hnorm]
  have hnover : (DataFrame.dropColumn (toDataFrame rs) c).columns.any
      (fun x => ((toDataFrame (rs.map (fun r => flatAt r c))).renameCols
        (fun sub => c ++ "_" ++ sub)).columns.contains x) = false := by
    rw [Bool.eq_false_iff]
    intro hany
    obtain ⟨x, hx, hxb⟩ := List.any_eq_true.mp hany
    have hx1 : x ∈ unionKeys rs := by
      have := List.mem_of_mem_filter hx
      exact this
    have hx2 : x ∈ newCols rs c := by
      simpa [DataFrame.renameCols, toDataFrame, newCols, subCols,
        List.elem_iff] using hxb
    exact hfresh x hx2 hx1
  simp only [DataFrame.joinDF, hnover, Bool.false_eq_true, if_false]
  refine congrArg Except.ok ?_
  refine congrArg₂ DataFrame.mk rfl ?_
  simp only [DataFrame.dropColumn, toDataFrame, DataFrame.renameCols,
    List.map_map]
  rw [List.zip_map', List.map_map]
  refine List.map_congr_left ?_
  intro r _
  simp only [Function.comp_apply]
  rw [recordToRow_filter]
  refine congrArg₂ List.append rfl ?_
  simp only [recordToRow, List.map_map]
  rfl

/-- Claim C3 as amended: for a non-empty result sequence whose only column
    with an object in the first row is c, provided every row holds an object at
    c and the generated names collide with no existing column, normalization
    removes c and appends one column named c underscore subkey for every subkey
    observed across the objects of all rows (union, first-seen order),
    substituting in each row the value its flattened object gives that subkey,
    with a missing cell when the object lacks the subkey; a row lacking the
    object altogether makes normalization raise instead (see the
    counterexample), and keys whose first-row value is not an object are kept
    at top level with their values. -/
theorem C3_flatten_object_column (rs : List Record) (c : String)
    (hne : rs ≠ [])
    (htarg : flattenTargets (toDataFrame rs) = [c])
    (hall : ∀ r ∈ rs, cellIsObj (rlookup r c) = true)
    (hfresh : ∀ n ∈ newCols rs c, n ∉ unionKeys rs) :
    Oreilly.normalize rs =
      Except.ok
        ⟨(unionKeys rs).filter (fun x => x ≠ c) ++ newCols rs c,
         rs.map (fun r =>
           recordToRow ((unionKeys rs).filter (fun x => x ≠ c)) r ++
           (subCols rs c).map (fun s => (c ++ "_" ++ s, rlookup (flatAt r c) s)))⟩ ∧
    c ∉ (unionKeys rs).filter (fun x => x ≠ c) ++ newCols rs c ∧
    (∀ s, s ∈ subCols rs c ↔ ∃ r ∈ rs, s ∈ recKeys (flatAt r c)) ∧
    (∀ r ∈ rs, ∀ s, s ∉ recKeys (flatAt r c) → rlookup (flatAt r c) s = none) := by
  have hc : c ∈ unionKeys rs := by
    have hmem : c ∈ flattenTargets (toDataFrame rs) := by
      rw [htarg]; exact List.mem_singleton.mpr rfl
    exact List.mem_of_mem_filter hmem
  refine ⟨?_, ?_, ?_, ?_⟩
  · have hie : rs.isEmpty = false := by
      cases rs
      · exact absurd rfl hne
      · rfl
    rw [Oreilly.normalize]
    simp only [hie, Bool.false_eq_true, if_false, htarg, flattenLoop,
      processCol_toDataFrame rs c hc hall hfresh]
  · intro hmem
    rcases List.mem_append.mp hmem with hmem | hmem
    · have := (List.mem_filter.mp hmem).2
      simp at this
    · obtain ⟨s, _, hs⟩ := List.mem_map.mp hmem
      have hlen := congrArg String.length hs
      have h1 : ("_" : String).length = 1 := rfl
      simp only [String.length_append, h1] at hlen
      omega
  · intro s
    rw [subCols, mem_unionKeys]
    constructor
    · rintro ⟨fr, hfr, hs⟩
      obtain ⟨r, hr, rfl⟩ := List.mem_map.mp hfr
      exact ⟨r, hr, hs⟩
    · rintro ⟨r, hr, hs⟩
      exact ⟨flatAt r c, List.mem_map_of_mem _ hr, hs⟩
  · intro r _ s hs
    exact (rlookup_eq_none_iff _ _).mpr hs

/-- Witness for C3 as amended, at two rows whose objects carry different
    subkeys: the subkey of the second row also becomes a column, and each row
    gets a missing cell at the subkey its object lacks. -/
theorem C3_flatten_object_column_witness :
    Oreilly.normalize [[("k", JValue.obj [("a", JValue.num 1)])],
        [("k", JValue.obj [("b", JValue.num 2)])]] =
      Except.ok
        ⟨(unionKeys [[("k", JValue.obj [("a", JValue.num 1)])],
            [("k", JValue.obj [("b", JValue.num 2)])]]).filter (fun x => x ≠ "k") ++
          newCols [[("k", JValue.obj [("a", JValue.num 1)])],
            [("k", JValue.obj [("b", JValue.num 2)])]] ("k"),
         [[("k", JValue.obj [("a", JValue.num 1)])],
            [("k", JValue.obj [("b", JValue.num 2)])]].map (fun r =>
           recordToRow ((unionKeys [[("k", JValue.obj [("a", JValue.num 1)])],
             [("k", JValue.obj [("b", JValue.num 2)])]]).filter (fun x => x ≠ "k")) r ++
           (subCols [[("k", JValue.obj [("a", JValue.num 1)])],
             [("k", JValue.obj [("b", JValue.num 2)])]] ("k")).map
               (fun s => ("k" ++ "_" ++ s,
                 rlookup (flatAt r ("k")) s)))⟩ :=
  (C3_flatten_object_column
    [[("k", JValue.obj [("a", JValue.num 1)])],
     [("k", JValue.obj [("b", JValue.num 2)])]] ("k")
    (by simp) (by decide)
    (by decide)
    (by decide)).1

/-! Totality of the flattening loop under homogeneous object columns. -/

/-- The flat records json_normalize derives from the entries of one column. -/
def colFlats (df : DataFrame) (c : String) : List Record :=
  (df.colCells c).map (fun cell => nestedToRecord (JValue.objFields (cell.getD JValue.null)))

/-- The prefixed column names one column contributes when flattened. -/
def prefNames (df : DataFrame) (c : String) : List String :=
  (unionKeys (colFlats df c)).map (fun s => c ++ "_" ++ s)
/-- A flattening step preserves the entries of every column whose name differs
    from the processed one and from every generated name. -/
theorem colCells_zip (rows nrows : List Row) (c c' : String) (hne : c' ≠ c)
    (hkeys : ∀ nrow ∈ nrows, c' ∉ recKeys nrow)
    (hlen : nrows.length = rows.length) :
    List.map (fun r => (rlookup r c').getD none)
      (List.map (fun p => p.1 ++ p.2)
        ((List.map (fun r => r.filter (fun kv => kv.1 ≠ c)) rows).zip nrows)) =
      List.map (fun r => (rlookup r c').getD none) rows := by
  induction rows generalizing nrows with
  | nil => simp
  | cons r rest ih =>
    cases nrows with
    | nil => simp at hlen
    | cons nr nrest =>
      simp only [List.map_cons, List.zip_cons_cons]
      rw [rlookup_flatten_row hne r nr (hkeys nr (List.mem_cons_self nr nrest)),
        ih nrest (fun x hx => hkeys x (List.mem_cons_of_mem _ hx))
          (by simpa using hlen)]

/-- One flattening step on an arbitrary frame, under the conditions that make
    it succeed: every entry of the column is an object and the generated names
    are fresh. The step keeps the row count, replaces the column with the
    prefixed flattened columns appended at the end, and leaves every other
    non-colliding column unchanged. -/
theorem processCol_general (df : DataFrame) (c : String)
    (hall : (df.colCells c).all cellIsObj = true)
    (hfresh : ∀ n ∈ prefNames df c, n ∉ df.columns) :
    ∃ df2, processCol df c = Except.ok df2 ∧
      df2.columns = df.columns.filter (fun x => x ≠ c) ++ prefNames df c ∧
      (∀ c', c' ≠ c → c' ∉ prefNames df c → df2.colCells c' = df.colCells c') ∧
      df2.rows.length = df.rows.length := by
  rw [processCol, json_normalize, if_pos hall]
  have hnover : (DataFrame.dropColumn df c).columns.any
      (fun x => ((toDataFrame ((df.colCells c).map (fun cell =>
        nestedToRecord (JValue.objFields (cell.getD JValue.null))))).renameCols
          (fun sub => c ++ "_" ++ sub)).columns.contains x) = false := by
    rw [Bool.eq_false_iff]
    intro hany
    obtain ⟨x, hx, hxb⟩ := List.any_eq_true.mp hany
    have hx1 : x ∈ df.columns := List.mem_of_mem_filter hx
    have hx2 : x ∈ prefNames df c := by
      simpa [DataFrame.renameCols, toDataFrame, prefNames, colFlats,
        List.elem_iff] using hxb
    exact hfresh x hx2 hx1
  simp only [DataFrame.joinDF, hnover, Bool.false_eq_true, if_false]
  refine ⟨_, rfl, ?_, ?_, ?_⟩
  · simp [DataFrame.dropColumn, DataFrame.renameCols, toDataFrame, prefNames, colFlats]
  · intro c' hne hnp
    have hkeys : ∀ nrow ∈ ((toDataFrame ((df.colCells c).map (fun cell =>
        nestedToRecord (JValue.objFields (cell.getD JValue.null))))).renameCols
          (fun sub => c ++ "_" ++ sub)).rows, c' ∉ recKeys nrow := by
      intro nrow hnrow
      simp only [DataFrame.renameCols, toDataFrame, List.map_map, List.mem_map] at hnrow
      obtain ⟨fr, _, rfl⟩ := hnrow
      intro hmem
      apply hnp
      rw [prefNames, colFlats]
      simpa [recKeys, recordToRow, List.map_map, Function.comp] using hmem
    have hlen2 : ((toDataFrame ((df.colCells c).map (fun cell =>
        nestedToRecord (JValue.objFields (cell.getD JValue.null))))).renameCols
          (fun sub => c ++ "_" ++ sub)).rows.length = df.rows.length := by
      simp [DataFrame.renameCols, toDataFrame, DataFrame.colCells]
    simp only [DataFrame.colCells, DataFrame.dropColumn]
    exact colCells_zip df.rows
      ((toDataFrame ((df.colCells c).map (fun cell =>
        nestedToRecord (JValue.objFields (cell.getD JValue.null))))).renameCols
          (fun sub => c ++ "_" ++ sub)).rows c c' hne hkeys hlen2
  · simp [DataFrame.renameCols, toDataFrame, DataFrame.colCells,
      DataFrame.dropColumn]

/-- The generated names of an untouched column do not change. -/
theorem prefNames_congr {df df2 : DataFrame} {c : String}
    (h : df2.colCells c = df.colCells c) : prefNames df2 c = prefNames df c := by
  rw [prefNames, prefNames, colFlats, colFlats, h]

/-- The flattening loop succeeds when every selected column holds objects in
    all rows and the generated names are fresh and mutually disjoint; the
    assignment P records the generated names of each pending column, which
    stay constant along the loop. -/
theorem flattenLoop_total (targets : List String) (df : DataFrame)
    (P : String → List String)
    (hP : ∀ c ∈ targets, prefNames df c = P c)
    (hnodup : targets.Nodup)
    (hsub : ∀ c ∈ targets, c ∈ df.columns)
    (hall : ∀ c ∈ targets, (df.colCells c).all cellIsObj = true)
    (hfresh : ∀ c ∈ targets, ∀ n ∈ P c, n ∉ df.columns)
    (hpair : targets.Pairwise (fun c c' => ∀ n ∈ P c', n ∉ P c)) :
    ∃ df2, flattenLoop targets df = Except.ok df2 := by
  induction targets generalizing df with
  | nil => exact ⟨df, rfl⟩
  | cons c rest ih =>
    have hPc := hP c (List.mem_cons_self c rest)
    have hallc := hall c (List.mem_cons_self c rest)
    have hfreshc : ∀ n ∈ prefNames df c, n ∉ df.columns := by
      rw [hPc]; exact hfresh c (List.mem_cons_self c rest)
    obtain ⟨df2, hok, hcols, hpres, _⟩ := processCol_general df c hallc hfreshc
    rw [flattenLoop, hok]
    have hnoc : ∀ c' ∈ rest, c' ≠ c := by
      intro c' hc' hcc
      exact (List.nodup_cons.mp hnodup).1 (hcc ▸ hc')
    have hnotpref : ∀ c' ∈ rest, c' ∉ prefNames df c := by
      intro c' hc' hmem
      rw [hPc] at hmem
      exact hfresh c (List.mem_cons_self c rest) c' hmem
        (hsub c' (List.mem_cons_of_mem c hc'))
    have hcells : ∀ c' ∈ rest, df2.colCells c' = df.colCells c' :=
      fun c' hc' => hpres c' (hnoc c' hc') (hnotpref c' hc')
    refine ih df2 ?_ (List.nodup_cons.mp hnodup).2 ?_ ?_ ?_
      (List.Pairwise.sublist (List.sublist_cons_self c rest) hpair)
    · intro c' hc'
      rw [prefNames_congr (hcells c' hc')]
      exact hP c' (List.mem_cons_of_mem c hc')
    · intro c' hc'
      rw [hcols]
      simp only [List.mem_append, List.mem_filter]
      exact Or.inl ⟨hsub c' (List.mem_cons_of_mem c hc'), by simpa using hnoc c' hc'⟩
    · intro c' hc'
      rw [hcells c' hc']
      exact hall c' (List.mem_cons_of_mem c hc')
    · intro c' hc' n hn
      rw [hcols]
      simp only [List.mem_append, List.mem_filter, not_or]
      constructor
      · intro hmem
        exact hfresh c' (List.mem_cons_of_mem c hc') n hn hmem.1
      · have hrel := List.rel_of_pairwise_cons hpair hc'
        rw [hPc]
        exact hrel n hn

/-- Claim C4 as amended: normalization is total on raw result sequences in
    which every column holding an object in the first row holds an object in
    every row and the generated flattened names collide neither with existing
    columns nor with each other; outside this domain it can raise, as the
    counterexample with a dict in the first row and a scalar below it shows,
    so the unconditional totality the claim states does not hold. -/
theorem C4_totality (rs : List Record)
    (hall : ∀ c ∈ flattenTargets (toDataFrame rs), ∀ r ∈ rs,
      cellIsObj (rlookup r c) = true)
    (hfresh : ∀ c ∈ flattenTargets (toDataFrame rs),
      ∀ n ∈ prefNames (toDataFrame rs) c, n ∉ unionKeys rs)
    (hpair : (flattenTargets (toDataFrame rs)).Pairwise
      (fun c c' => ∀ n ∈ prefNames (toDataFrame rs) c',
        n ∉ prefNames (toDataFrame rs) c)) :
    ∃ df, Oreilly.normalize rs = Except.ok df := by
  rw [Oreilly.normalize]
  cases hie : rs.isEmpty
  case true => exact ⟨⟨[], []⟩, by simp⟩
  case false =>
    simp only [Bool.false_eq_true, if_false]
    refine flattenLoop_total _ _ (prefNames (toDataFrame rs)) (fun c _ => rfl)
      ?_ ?_ ?_ ?_ hpair
    · exact List.Nodup.filter _ (unionKeys_nodup rs)
    · exact fun c hc => List.mem_of_mem_filter hc
    · intro c hc
      rw [colCells_toDataFrame rs (List.mem_of_mem_filter hc), List.all_eq_true]
      intro x hx
      obtain ⟨r, hr, rfl⟩ := List.mem_map.mp hx
      exact hall c hc r hr
    · exact hfresh

/-- Witness for C4 as amended, at two rows with two homogeneous object
    columns carrying different subkeys. -/
theorem C4_totality_witness :
    ∃ df, Oreilly.normalize
      [[("k", JValue.obj [("a", JValue.num 1)]), ("m", JValue.obj [("b", JValue.num 2)])],
       [("k", JValue.obj [("a", JValue.num 3)]), ("m", JValue.obj [("c", JValue.num 4)])]] =
      Except.ok df :=
  C4_totality
    [[("k", JValue.obj [("a", JValue.num 1)]), ("m", JValue.obj [("b", JValue.num 2)])],
     [("k", JValue.obj [("a", JValue.num 3)]), ("m", JValue.obj [("c", JValue.num 4)])]]
    (by decide) (by decide) (by decide)

/-! Export projection: prepare_dataframe_for_export (api.py lines 37 to 83). -/

/-- Embeds the CSV_COLUMNS constant (api.py lines 21 to 31). -/
def CSV_COLUMNS : List String :=
  ["title", "authors", "issued", "publisher", "description", "topics",
   "web_url", "archive_id", "format"]

/-- Embeds the display-name mapping of prepare_dataframe_for_export
    (api.py lines 70 to 80). -/
def column_names : List (String × String) :=
  [("title", "Title"), ("authors", "Authors"), ("issued", "Published Date"),
   ("publisher", "Publisher"), ("description", "Description"),
   ("topics", "Topics"), ("web_url", "URL"), ("archive_id", "Archive ID"),
   ("format", "Format")]

/-- The new name of a column: its display name when mapped, itself otherwise
    (api.py line 81). -/
def renameColumn (c : String) : String := (rlookup column_names c).getD c

/-- Check for a JSON string. -/
def JValue.isStr : JValue → Bool
  | JValue.str _ => true
  | _ => false

/-- The carried string of a JSON string value. -/
def JValue.strVal : JValue → String
  | JValue.str s => s
  | _ => ""

/-- Python str.join with a comma-space separator. -/
def joinCommaSp : List String → String
  | [] => ""
  | [x] => x
  | x :: xs => x ++ ", " ++ joinCommaSp xs

/-- Embeds the lambda applied to the authors and topics columns (api.py lines
    55 and 59): a Python list is joined with comma-space, raising TypeError
    when an element is not a string; every other value, missing cells
    included, passes through unchanged. -/
def joinListCell : Cell → Except String Cell
  | some (JValue.arr xs) =>
      if xs.all JValue.isStr then
        Except.ok (some (JValue.str (joinCommaSp (xs.map JValue.strVal))))
      else Except.error ("TypeError")
  | c => Except.ok c

/-- Numeric value of a decimal digit character. -/
def digitVal (ch : Char) : Nat := ch.toNat - 48

/-- Length of a month in the Gregorian calendar, leap years included. -/
def daysInMonth (year month : Nat) : Nat :=
  if month = 2 then
    if year % 4 = 0 && (year % 100 ≠ 0 || year % 400 = 0) then 29 else 28
  else if month = 4 || month = 6 || month = 9 || month = 11 then 30
  else 31

/-- Character lists of the exact shape YYYY-MM-DD that to_datetime accepts as
    a date: decimal digits with dashes, month and day forming a real
    Gregorian calendar date, and a year kept strictly inside the nanosecond
    Timestamp range (1677 to 2262 at its edges), so that out-of-bounds and
    invalid dates such as month 13 or February 30 are rejected exactly as
    pandas rejects them. -/
def isIsoDateList : List Char → Bool
  | [y1, y2, y3, y4, h1, m1, m2, h2, d1, d2] =>
      y1.isDigit && y2.isDigit && y3.isDigit && y4.isDigit &&
      h1 == '-' && m1.isDigit && m2.isDigit && h2 == '-' &&
      d1.isDigit && d2.isDigit &&
      (let year := 1000 * digitVal y1 + 100 * digitVal y2 +
        10 * digitVal y3 + digitVal y4
       let month := 10 * digitVal m1 + digitVal m2
       let day := 10 * digitVal d1 + digitVal d2
       1678 ≤ year && year ≤ 2261 && 1 ≤ month && month ≤ 12 &&
       1 ≤ day && day ≤ daysInMonth year month)
  | _ => false

/-- Character lists of the exact time shape HH:MM:SS with the field bounds
    to_datetime enforces. -/
def isIsoTimeList : List Char → Bool
  | [t1, t2, c1, t3, t4, c2, t5, t6] =>
      t1.isDigit && t2.isDigit && c1 == ':' && t3.isDigit && t4.isDigit &&
      c2 == ':' && t5.isDigit && t6.isDigit &&
      (10 * digitVal t1 + digitVal t2 ≤ 23) &&
      (10 * digitVal t3 + digitVal t4 ≤ 59) &&
      (10 * digitVal t5 + digitVal t6 ≤ 59)
  | _ => false

/-- What may follow the date part of an issued string: nothing, or a T and a
    well-formed time; any other tail makes to_datetime raise. -/
def isIsoTail : List Char → Bool
  | [] => true
  | 'T' :: rest => isIsoTimeList rest
  | _ => false

/-- Partial model of the pandas to_datetime plus strftime step on the issued
    column (api.py line 63), on the canonical value shapes this development
    exercises: a missing or null entry becomes missing (NaT, then NaN under
    strftime); a string holding a valid in-bounds calendar date YYYY-MM-DD,
    alone or followed by T and a well-formed naive time, is reduced to its
    first ten characters; every other value, including digit-shaped strings
    whose month, day, hour, minute or second is out of range, is treated as
    a parse failure, as to_datetime raises on them. Date formats outside
    these canonical shapes are out of the modelled domain and also mapped to
    the failure case. -/
def toDatetimeCell : Cell → Except String Cell
  | none => Except.ok none
  | some JValue.null => Except.ok none
  | some (JValue.str s) =>
      if isIsoDateList (s.toList.take 10) && isIsoTail (s.toList.drop 10) then
        Except.ok (some (JValue.str (String.mk (s.toList.take 10))))
      else Except.error ("DateParseError")
  | some _ => Except.error ("DateParseError")

/-- Apply a fallible cell transform to the entries of one column in a row. -/
def applyRow (c : String) (f : Cell → Except String Cell) : Row → Except String Row
  | [] => Except.ok []
  | kv :: rest =>
      match (if kv.1 = c then
               match f kv.2 with
               | Except.error e => Except.error e
               | Except.ok v => Except.ok (c, v)
             else Except.ok kv) with
      | Except.error e => Except.error e
      | Except.ok kv2 =>
          match applyRow c f rest with
          | Except.error e => Except.error e
          | Except.ok rest2 => Except.ok (kv2 :: rest2)

/-- Apply a fallible cell transform to one column of every row. -/
def applyRows (c : String) (f : Cell → Except String Cell) :
    List Row → Except String (List Row)
  | [] => Except.ok []
  | r :: rest =>
      match applyRow c f r with
      | Except.error e => Except.error e
      | Except.ok r2 =>
          match applyRows c f rest with
          | Except.error e => Except.error e
          | Except.ok rest2 => Except.ok (r2 :: rest2)

/-- Embeds a column assignment through Series.apply: the cells of the column
    are transformed, the other columns and the column order are untouched; a
    raise from the transform propagates. -/
def DataFrame.applyCol (df : DataFrame) (c : String)
    (f : Cell → Except String Cell) : Except String DataFrame :=
  match applyRows c f df.rows with
  | Except.error e => Except.error e
  | Except.ok rows2 => Except.ok ⟨df.columns, rows2⟩

/-- Embeds selection of a column list in order (api.py line 67). -/
def DataFrame.selectCols (df : DataFrame) (cols : List String) : DataFrame :=
  ⟨cols, df.rows.map (fun r => cols.map (fun c => (c, (rlookup r c).getD none)))⟩

/-- Embeds prepare_dataframe_for_export (api.py lines 37 to 83): an empty
    frame is returned as is; otherwise, on a copy, the authors and topics
    columns are join-transformed when present, the issued column is
    date-reformatted when present, the frame is projected onto the CSV
    columns present in it, in the fixed order, and the kept columns are
    renamed to their display names. -/
def prepare_dataframe_for_export (df : DataFrame) : Except String DataFrame :=
  if df.rows.isEmpty || df.columns.isEmpty then Except.ok df
  else
    match (if df.columns.contains ("authors") then
             df.applyCol ("authors") joinListCell
           else Except.ok df) with
    | Except.error e => Except.error e
    | Except.ok df1 =>
      match (if df1.columns.contains ("topics") then
               df1.applyCol ("topics") joinListCell
             else Except.ok df1) with
      | Except.error e => Except.error e
      | Except.ok df2 =>
        match (if df2.columns.contains ("issued") then
                 df2.applyCol ("issued") toDatetimeCell
               else Except.ok df2) with
        | Except.error e => Except.error e
        | Except.ok df3 =>
          Except.ok ((df3.selectCols
            (CSV_COLUMNS.filter (fun c => df3.columns.contains c))).renameCols
              renameColumn)

/-- State passing version of prepare_dataframe_for_export: the first
    component tracks the object bound to the df parameter, the second the
    outcome. Line 51 copies df into export_df and every later statement
    assigns to export_df or to one of its columns only, so the df binding is
    threaded unchanged past every step and every early raise. -/
def prepare_program (df : DataFrame) : DataFrame × Except String DataFrame :=
  if df.rows.isEmpty || df.columns.isEmpty then (df, Except.ok df)
  else
    match (if df.columns.contains ("authors") then
             df.applyCol ("authors") joinListCell
           else Except.ok df) with
    | Except.error e => (df, Except.error e)
    | Except.ok df1 =>
      match (if df1.columns.contains ("topics") then
               df1.applyCol ("topics") joinListCell
             else Except.ok df1) with
      | Except.error e => (df, Except.error e)
      | Except.ok df2 =>
        match (if df2.columns.contains ("issued") then
                 df2.applyCol ("issued") toDatetimeCell
               else Except.ok df2) with
        | Except.error e => (df, Except.error e)
        | Except.ok df3 =>
          (df, Except.ok ((df3.selectCols
            (CSV_COLUMNS.filter (fun c => df3.columns.contains c))).renameCols
              renameColumn))

/-- Claim C9: prepare_dataframe_for_export never modifies its input: in the
    state passing version the value bound to the df parameter is returned
    untouched next to the outcome, on success and on every raise alike,
    because line 51 copies the frame before any mutation. -/
theorem C9_no_input_mutation (df : DataFrame) :
    prepare_program df = (df, prepare_dataframe_for_export df) := by
  rw [prepare_program, prepare_dataframe_for_export]
  split
  · rfl
  · cases h1 : (if df.columns.contains ("authors") then
        df.applyCol ("authors") joinListCell else Except.ok df) with
    | error e => rfl
    | ok df1 =>
      dsimp only
      cases h2 : (if df1.columns.contains ("topics") then
          df1.applyCol ("topics") joinListCell else Except.ok df1) with
      | error e => rfl
      | ok df2 =>
        dsimp only
        cases h3 : (if df2.columns.contains ("issued") then
            df2.applyCol ("issued") toDatetimeCell else Except.ok df2) with
        | error e => rfl
        | ok df3 => rfl

/-- Claim C10: an input frame with zero rows is empty in the pandas sense, so
    it is returned unchanged: neither the projection onto the export columns
    nor the renaming is applied, and it keeps exactly its original columns
    under their original names. -/
theorem C10_empty_input (df : DataFrame) (h : df.rows = []) :
    prepare_dataframe_for_export df = Except.ok df := by
  rw [prepare_dataframe_for_export,
    if_pos (show (df.rows.isEmpty || df.columns.isEmpty) = true by rw [h]; rfl)]

/-- Witness for C10 at a rowless frame with one column outside the export
    set: it comes back with its original column, not projected and not
    renamed. -/
theorem C10_empty_input_witness :
    prepare_dataframe_for_export ⟨["extra"], []⟩ = Except.ok ⟨["extra"], []⟩ :=
  C10_empty_input ⟨["extra"], []⟩ rfl

/-! Claim C7: the export projection against the claim wording. -/

/-- Total comma-space join of the claim C7 wording: a list cell becomes the
    join of its elements, every other cell is unchanged. -/
def joinCellTotal : Cell → Cell
  | some (JValue.arr xs) => some (JValue.str (joinCommaSp (xs.map JValue.strVal)))
  | c => c

/-- Total date reformat of the claim C7 wording: missing and null cells stay
    missing, a date-like string is cut to its YYYY-MM-DD date part. -/
def dateCellTotal : Cell → Cell
  | none => none
  | some JValue.null => none
  | some (JValue.str s) => some (JValue.str (String.mk (s.toList.take 10)))
  | c => c

/-- Cells the join transform accepts without raising: everything except a
    list with a non-string element. -/
def joinSafe : Cell → Bool
  | some (JValue.arr xs) => xs.all JValue.isStr
  | _ => true

/-- Cells the date transform accepts without raising: absent, null, or a
    string holding a valid in-bounds calendar date, alone or followed by T
    and a well-formed naive time. This is exactly the success domain of the
    modelled to_datetime step, so calendar-invalid digit shapes such as
    month 13, February 30 or hour 24, and junk after the T, are excluded. -/
def dateSafe : Cell → Bool
  | none => true
  | some JValue.null => true
  | some (JValue.str s) =>
      isIsoDateList (s.toList.take 10) && isIsoTail (s.toList.drop 10)
  | some _ => false

/-- The per-cell transform of the claim C7 wording, by export column. -/
def exportCellC7 (c : String) (cell : Cell) : Cell :=
  if c = "authors" || c = "topics" then joinCellTotal cell
  else if c = "issued" then dateCellTotal cell
  else cell

/-- Modelled from the claim C7 wording: the export table is the projection of
    the source onto the fixed ordered export column list intersected with the
    available columns, renamed to the display names, with list-valued authors
    and topics cells joined by comma-space and issued values reduced to their
    date part; a column absent from the source appears in no export row. -/
def prepare_specC7 (df : DataFrame) : DataFrame :=
  ⟨(CSV_COLUMNS.filter (fun c => df.columns.contains c)).map renameColumn,
   df.rows.map (fun r => (CSV_COLUMNS.filter (fun c => df.columns.contains c)).map
     (fun c => (renameColumn c, exportCellC7 c ((rlookup r c).getD none))))⟩

/-- Transform the entries of one column in a row. -/
def mapRowEntry (c0 : String) (g : Cell → Cell) (r : Row) : Row :=
  r.map (fun kv => if kv.1 = c0 then (c0, g kv.2) else kv)

/-- Transform one column of a row when the flag is set. -/
def condRow (b : Bool) (c0 : String) (g : Cell → Cell) (r : Row) : Row :=
  if b then mapRowEntry c0 g r else r

/-- Transform one column of every row when the flag is set. -/
def condRows (b : Bool) (c0 : String) (g : Cell → Cell) (rows : List Row) :
    List Row :=
  if b then rows.map (mapRowEntry c0 g) else rows

/-- The combined per-value transform the three conditional column assignments
    amount to. -/
def exportValueC7 (bA bT bI : Bool) (c : String) (v : Cell) : Cell :=
  if c = "authors" && bA then joinCellTotal v
  else if c = "topics" && bT then joinCellTotal v
  else if c = "issued" && bI then dateCellTotal v
  else v

theorem joinListCell_safe {cell : Cell} (h : joinSafe cell = true) :
    joinListCell cell = Except.ok (joinCellTotal cell) := by
  rcases cell with _ | v
  · rfl
  · rcases v with _ | b | n | s | xs | kvs <;> try rfl
    have h2 : xs.all JValue.isStr = true := h
    rw [joinListCell, joinCellTotal, if_pos h2]

theorem toDatetimeCell_safe {cell : Cell} (h : dateSafe cell = true) :
    toDatetimeCell cell = Except.ok (dateCellTotal cell) := by
  rcases cell with _ | v
  · rfl
  · rcases v with _ | b | n | s | xs | kvs
    · rfl
    · exact absurd h (by simp [dateSafe])
    · exact absurd h (by simp [dateSafe])
    · have h2 : (isIsoDateList (s.toList.take 10) &&
          isIsoTail (s.toList.drop 10)) = true := h
      rw [toDatetimeCell, if_pos h2, dateCellTotal]
    · exact absurd h (by simp [dateSafe])
    · exact absurd h (by simp [dateSafe])

theorem applyRow_ok (c : String) (f : Cell → Except String Cell)
    (g : Cell → Cell) (r : Row)
    (hsafe : ∀ kv ∈ r, kv.1 = c → f kv.2 = Except.ok (g kv.2)) :
    applyRow c f r = Except.ok (mapRowEntry c g r) := by
  induction r with
  | nil => rfl
  | cons kv rest ih =>
    rw [applyRow]
    have hrest := ih (fun x hx hc => hsafe x (List.mem_cons_of_mem kv hx) hc)
    by_cases hkv : kv.1 = c
    · rw [if_pos hkv, hsafe kv (List.mem_cons_self kv rest) hkv]
      dsimp only
      rw [hrest]
      simp [mapRowEntry, hkv]
    · rw [if_neg hkv]
      dsimp only
      rw [hrest]
      simp [mapRowEntry, hkv]

theorem applyRows_ok (c : String) (f : Cell → Except String Cell)
    (g : Cell → Cell) (rows : List Row)
    (hsafe : ∀ r ∈ rows, ∀ kv ∈ r, kv.1 = c → f kv.2 = Except.ok (g kv.2)) :
    applyRows c f rows = Except.ok (rows.map (mapRowEntry c g)) := by
  induction rows with
  | nil => rfl
  | cons r rest ih =>
    rw [applyRows, applyRow_ok c f g r (hsafe r (List.mem_cons_self r rest))]
    dsimp only
    rw [ih (fun x hx => hsafe x (List.mem_cons_of_mem r hx))]
    rfl

theorem applyCol_ok (df : DataFrame) (c : String)
    (f : Cell → Except String Cell) (g : Cell → Cell)
    (hsafe : ∀ r ∈ df.rows, ∀ kv ∈ r, kv.1 = c → f kv.2 = Except.ok (g kv.2)) :
    df.applyCol c f = Except.ok ⟨df.columns, df.rows.map (mapRowEntry c g)⟩ := by
  rw [DataFrame.applyCol, applyRows_ok c f g df.rows hsafe]

theorem rlookup_mapRowEntry_ne (r : Row) {c c0 : String} (hne : c ≠ c0)
    (g : Cell → Cell) : rlookup (mapRowEntry c0 g r) c = rlookup r c := by
  induction r with
  | nil => rfl
  | cons kv rest ih =>
    rw [mapRowEntry, List.map_cons]
    by_cases h0 : kv.1 = c0
    · rw [if_pos h0, rlookup, rlookup, if_neg (fun hx : c0 = c => hne hx.symm),
        if_neg (fun hx : kv.1 = c => hne (hx ▸ h0))]
      exact ih
    · rw [if_neg h0, rlookup, rlookup]
      by_cases hc : kv.1 = c
      · rw [if_pos hc, if_pos hc]
      · rw [if_neg hc, if_neg hc]
        exact ih

theorem rlookup_mapRowEntry_eq (r : Row) (c0 : String) (g : Cell → Cell) :
    rlookup (mapRowEntry c0 g r) c0 = (rlookup r c0).map g := by
  induction r with
  | nil => rfl
  | cons kv rest ih =>
    rw [mapRowEntry, List.map_cons]
    by_cases h0 : kv.1 = c0
    · rw [if_pos h0, rlookup, if_pos rfl, rlookup, if_pos h0]
      rfl
    · rw [if_neg h0, rlookup, rlookup, if_neg h0, if_neg h0]
      exact ih

theorem safety_mapRowEntry {c0 c1 : String} (hne : c1 ≠ c0) (g : Cell → Cell)
    (Q : Cell → Bool) (r : Row)
    (h : ∀ kv ∈ r, kv.1 = c1 → Q kv.2 = true) :
    ∀ kv ∈ mapRowEntry c0 g r, kv.1 = c1 → Q kv.2 = true := by
  intro kv hkv hc1
  obtain ⟨kv0, hkv0, rfl⟩ := List.mem_map.mp hkv
  by_cases h0 : kv0.1 = c0
  · rw [if_pos h0] at hc1
    exact absurd hc1 (fun hx => hne (hx ▸ rfl))
  · rw [if_neg h0] at hc1 ⊢
    exact h kv0 hkv0 hc1

theorem safety_condRows {c0 c1 : String} (hne : c1 ≠ c0) (b : Bool)
    (g : Cell → Cell) (Q : Cell → Bool) (rows : List Row)
    (h : ∀ r ∈ rows, ∀ kv ∈ r, kv.1 = c1 → Q kv.2 = true) :
    ∀ r ∈ condRows b c0 g rows, ∀ kv ∈ r, kv.1 = c1 → Q kv.2 = true := by
  intro r hr
  rw [condRows] at hr
  by_cases hb : b = true
  · rw [if_pos hb] at hr
    obtain ⟨r0, hr0, rfl⟩ := List.mem_map.mp hr
    exact safety_mapRowEntry hne g Q r0 (h r0 hr0)
  · rw [if_neg hb] at hr
    exact h r hr

theorem condRows_eq_map (b : Bool) (c0 : String) (g : Cell → Cell)
    (rows : List Row) : condRows b c0 g rows = rows.map (condRow b c0 g) := by
  by_cases hb : b = true
  · rw [condRows, if_pos hb]
    refine List.map_congr_left ?_
    intro r _
    rw [condRow, if_pos hb]
  · rw [condRows, if_neg hb]
    have : ∀ r ∈ rows, r = condRow b c0 g r := by
      intro r _
      rw [condRow, if_neg hb]
    exact (List.map_congr_left (fun r hr => (this r hr).symm)).symm ▸
      (List.map_id rows).symm ▸ rfl

theorem rlookup_condRow_ne (b : Bool) {c c0 : String} (hne : c ≠ c0)
    (g : Cell → Cell) (r : Row) :
    rlookup (condRow b c0 g r) c = rlookup r c := by
  rw [condRow]
  by_cases hb : b = true
  · rw [if_pos hb, rlookup_mapRowEntry_ne r hne]
  · rw [if_neg hb]

theorem rlookup_condRow_eq (b : Bool) (c0 : String) (g : Cell → Cell)
    (r : Row) :
    rlookup (condRow b c0 g r) c0 =
      if b then (rlookup r c0).map g else rlookup r c0 := by
  rw [condRow]
  by_cases hb : b = true
  · rw [if_pos hb, if_pos hb, rlookup_mapRowEntry_eq]
  · rw [if_neg hb, if_neg hb]

theorem map_getD_none (o : Option Cell) (g : Cell → Cell)
    (hg : g none = none) : (o.map g).getD none = g (o.getD none) := by
  cases o
  · exact hg.symm
  · rfl

/-- The three conditional column assignments act on one looked-up cell as the
    combined per-value transform. -/
theorem cell_three_transforms (bA bT bI : Bool) (c : String) (r : Row) :
    (rlookup (condRow bI ("issued") dateCellTotal
        (condRow bT ("topics") joinCellTotal
          (condRow bA ("authors") joinCellTotal r))) c).getD none =
      exportValueC7 bA bT bI c ((rlookup r c).getD none) := by
  by_cases hca : c = "authors"
  · subst hca
    rw [rlookup_condRow_ne bI (by decide) dateCellTotal _,
      rlookup_condRow_ne bT (by decide) joinCellTotal _, rlookup_condRow_eq]
    cases bA
    · simp +decide [exportValueC7]
    · simp +decide [exportValueC7, map_getD_none _ joinCellTotal rfl]
  · by_cases hct : c = "topics"
    · subst hct
      rw [rlookup_condRow_ne bI (by decide) dateCellTotal _, rlookup_condRow_eq,
        rlookup_condRow_ne bA (by decide) joinCellTotal _]
      cases bT
      · simp +decide [exportValueC7]
      · simp +decide [exportValueC7, map_getD_none _ joinCellTotal rfl]
    · by_cases hci : c = "issued"
      · subst hci
        rw [rlookup_condRow_eq, rlookup_condRow_ne bT (by decide) joinCellTotal _,
          rlookup_condRow_ne bA (by decide) joinCellTotal _]
        cases bI
        · simp +decide [exportValueC7]
        · simp +decide [exportValueC7, map_getD_none _ dateCellTotal rfl]
      · rw [rlookup_condRow_ne bI hci dateCellTotal _,
          rlookup_condRow_ne bT hct joinCellTotal _,
          rlookup_condRow_ne bA hca joinCellTotal _]
        simp [exportValueC7, hca, hct, hci]

/-- Selecting the available export columns and renaming them, after the three
    conditional column transforms, is the projection of the claim C7
    wording. -/
theorem selectRename_spec (df : DataFrame) :
    ((⟨df.columns, condRows (df.columns.contains ("issued")) ("issued") dateCellTotal
        (condRows (df.columns.contains ("topics")) ("topics") joinCellTotal
          (condRows (df.columns.contains ("authors")) ("authors") joinCellTotal
            df.rows))⟩ : DataFrame).selectCols
      (CSV_COLUMNS.filter (fun c => df.columns.contains c))).renameCols
        renameColumn = prepare_specC7 df := by
  refine congrArg₂ DataFrame.mk rfl ?_
  simp only [DataFrame.selectCols, DataFrame.renameCols, prepare_specC7]
  simp only [condRows_eq_map, List.map_map]
  refine List.map_congr_left ?_
  intro r _
  simp only [Function.comp_apply, List.map_map]
  refine List.map_congr_left ?_
  intro c hc
  simp only [Function.comp_apply]
  refine congrArg (Prod.mk (renameColumn c)) ?_
  rw [cell_three_transforms]
  have hcc : df.columns.contains c = true := by
    simpa using List.of_mem_filter hc
  have hm : c ∈ df.columns := by simpa using hcc
  by_cases hca : c = "authors"
  · subst hca
    simp +decide [exportValueC7, exportCellC7, hcc, hm]
  · by_cases hct : c = "topics"
    · subst hct
      simp +decide [exportValueC7, exportCellC7, hcc, hm]
    · by_cases hci : c = "issued"
      · subst hci
        simp +decide [exportValueC7, exportCellC7, hcc, hm]
      · simp [exportValueC7, exportCellC7, hca, hct, hci]

/-- Claim C7: on a non-empty table whose authors and topics cells are not
    lists of non-strings and whose issued cells are absent, null, or hold a
    valid in-bounds calendar date (alone or with a well-formed naive time
    part) - the domain on which the to_datetime step succeeds - the export
    projection yields exactly the table of the claim wording: its column set
    is the fixed ordered export list intersected with the available source
    columns, renamed to the display names, with list cells joined by
    comma-space, issued reduced to YYYY-MM-DD, and a column absent from the
    source appearing in no export row. -/
theorem C7_export_projection (df : DataFrame)
    (hrows : df.rows ≠ []) (hcols : df.columns ≠ [])
    (hjoin : ∀ r ∈ df.rows, ∀ kv ∈ r, kv.1 = "authors" ∨ kv.1 = "topics" →
      joinSafe kv.2 = true)
    (hdate : ∀ r ∈ df.rows, ∀ kv ∈ r, kv.1 = "issued" → dateSafe kv.2 = true) :
    prepare_dataframe_for_export df = Except.ok (prepare_specC7 df) ∧
    (prepare_specC7 df).columns =
      (CSV_COLUMNS.filter (fun c => df.columns.contains c)).map renameColumn ∧
    (∀ row ∈ (prepare_specC7 df).rows,
      recKeys row =
        (CSV_COLUMNS.filter (fun c => df.columns.contains c)).map
          renameColumn) := by
  have hne : (df.rows.isEmpty || df.columns.isEmpty) = false := by
    cases hr : df.rows
    · exact absurd hr hrows
    · cases hc2 : df.columns
      · exact absurd hc2 hcols
      · rfl
  refine ⟨?_, rfl, ?_⟩
  · rw [prepare_dataframe_for_export,
      if_neg (by rw [hne]; exact Bool.false_ne_true)]
    have hsafeA : ∀ r ∈ df.rows, ∀ kv ∈ r, kv.1 = "authors" →
        joinListCell kv.2 = Except.ok (joinCellTotal kv.2) :=
      fun r hr kv hkv hc => joinListCell_safe (hjoin r hr kv hkv (Or.inl hc))
    have hstep1 : (if df.columns.contains ("authors") then
        df.applyCol ("authors") joinListCell else Except.ok df) =
        Except.ok (⟨df.columns, condRows (df.columns.contains ("authors"))
          ("authors") joinCellTotal df.rows⟩ : DataFrame) := by
      by_cases hb : df.columns.contains ("authors") = true
      · rw [if_pos hb, applyCol_ok df ("authors") joinListCell joinCellTotal hsafeA,
          condRows, if_pos hb]
      · rw [if_neg hb, condRows, if_neg hb]
    rw [hstep1]
    dsimp only
    have hsafeT : ∀ r ∈ condRows (df.columns.contains ("authors")) ("authors")
        joinCellTotal df.rows, ∀ kv ∈ r, kv.1 = "topics" →
        joinListCell kv.2 = Except.ok (joinCellTotal kv.2) := by
      intro r hr kv hkv hc
      refine joinListCell_safe (safety_condRows (by decide) _ joinCellTotal
        joinSafe df.rows ?_ r hr kv hkv hc)
      exact fun r2 hr2 kv2 hkv2 hc2 => hjoin r2 hr2 kv2 hkv2 (Or.inr hc2)
    have hstep2 : (if df.columns.contains ("topics") then
        DataFrame.applyCol ⟨df.columns, condRows (df.columns.contains ("authors"))
          ("authors") joinCellTotal df.rows⟩ ("topics") joinListCell
        else Except.ok (⟨df.columns, condRows (df.columns.contains ("authors"))
          ("authors") joinCellTotal df.rows⟩ : DataFrame)) =
        Except.ok (⟨df.columns, condRows (df.columns.contains ("topics"))
          ("topics") joinCellTotal (condRows (df.columns.contains ("authors"))
            ("authors") joinCellTotal df.rows)⟩ : DataFrame) := by
      by_cases hb : df.columns.contains ("topics") = true
      · rw [if_pos hb, applyCol_ok _ ("topics") joinListCell joinCellTotal hsafeT]
        rw [show condRows (df.columns.contains ("topics")) ("topics") joinCellTotal
            (condRows (df.columns.contains ("authors")) ("authors") joinCellTotal
              df.rows) = (condRows (df.columns.contains ("authors")) ("authors")
                joinCellTotal df.rows).map (mapRowEntry ("topics") joinCellTotal)
          from by rw [condRows, if_pos hb]]
      · rw [if_neg hb,
          show condRows (df.columns.contains ("topics")) ("topics") joinCellTotal
              (condRows (df.columns.contains ("authors")) ("authors") joinCellTotal
                df.rows) =
            condRows (df.columns.contains ("authors")) ("authors") joinCellTotal
              df.rows
          from by rw [condRows, if_neg hb]]
    rw [hstep2]
    dsimp only
    have hsafeI : ∀ r ∈ condRows (df.columns.contains ("topics")) ("topics")
        joinCellTotal (condRows (df.columns.contains ("authors")) ("authors")
          joinCellTotal df.rows), ∀ kv ∈ r, kv.1 = "issued" →
        toDatetimeCell kv.2 = Except.ok (dateCellTotal kv.2) := by
      intro r hr kv hkv hc
      refine toDatetimeCell_safe (safety_condRows (by decide) _ joinCellTotal
        dateSafe _ (safety_condRows (by decide) _ joinCellTotal
          dateSafe df.rows hdate) r hr kv hkv hc)
    have hstep3 : (if df.columns.contains ("issued") then
        DataFrame.applyCol ⟨df.columns, condRows (df.columns.contains ("topics"))
          ("topics") joinCellTotal (condRows (df.columns.contains ("authors"))
            ("authors") joinCellTotal df.rows)⟩ ("issued") toDatetimeCell
        else Except.ok (⟨df.columns, condRows (df.columns.contains ("topics"))
          ("topics") joinCellTotal (condRows (df.columns.contains ("authors"))
            ("authors") joinCellTotal df.rows)⟩ : DataFrame)) =
        Except.ok (⟨df.columns, condRows (df.columns.contains ("issued"))
          ("issued") dateCellTotal (condRows (df.columns.contains ("topics"))
            ("topics") joinCellTotal (condRows (df.columns.contains ("authors"))
              ("authors") joinCellTotal df.rows))⟩ : DataFrame) := by
      by_cases hb : df.columns.contains ("issued") = true
      · rw [if_pos hb, applyCol_ok _ ("issued") toDatetimeCell dateCellTotal hsafeI]
        rw [show condRows (df.columns.contains ("issued")) ("issued") dateCellTotal
            (condRows (df.columns.contains ("topics")) ("topics") joinCellTotal
              (condRows (df.columns.contains ("authors")) ("authors") joinCellTotal
                df.rows)) = (condRows (df.columns.contains ("topics")) ("topics")
                  joinCellTotal (condRows (df.columns.contains ("authors"))
                    ("authors") joinCellTotal df.rows)).map
                      (mapRowEntry ("issued") dateCellTotal)
          from by rw [condRows, if_pos hb]]
      · rw [if_neg hb,
          show condRows (df.columns.contains ("issued")) ("issued") dateCellTotal
              (condRows (df.columns.contains ("topics")) ("topics") joinCellTotal
                (condRows (df.columns.contains ("authors")) ("authors")
                  joinCellTotal df.rows)) =
            condRows (df.columns.contains ("topics")) ("topics") joinCellTotal
              (condRows (df.columns.contains ("authors")) ("authors")
                joinCellTotal df.rows)
          from by rw [condRows, if_neg hb]]
    rw [hstep3]
    dsimp only
    exact congrArg Except.ok (selectRename_spec df)
  · intro row hrow
    obtain ⟨r, _, rfl⟩ := List.mem_map.mp hrow
    simp [recKeys, List.map_map, Function.comp]

/-- Witness for C7 at a one-row table carrying title, a two-author list, a
    timestamped issued value and a column outside the export set: the export
    keeps Title, Authors and Published Date only, with the authors joined
    and the issued value cut to its date part. -/
theorem C7_export_projection_witness :
    prepare_dataframe_for_export
      ⟨["title", "authors", "issued", "extra"],
       [[("title", some (JValue.str ("X"))),
         ("authors", some (JValue.arr [JValue.str ("A"), JValue.str ("B")])),
         ("issued", some (JValue.str ("2023-01-15T10:30:00"))),
         ("extra", some (JValue.num 1))]]⟩ =
      Except.ok (prepare_specC7
        ⟨["title", "authors", "issued", "extra"],
         [[("title", some (JValue.str ("X"))),
           ("authors", some (JValue.arr [JValue.str ("A"), JValue.str ("B")])),
           ("issued", some (JValue.str ("2023-01-15T10:30:00"))),
           ("extra", some (JValue.num 1))]]⟩) :=
  (C7_export_projection
    ⟨["title", "authors", "issued", "extra"],
     [[("title", some (JValue.str ("X"))),
       ("authors", some (JValue.arr [JValue.str ("A"), JValue.str ("B")])),
       ("issued", some (JValue.str ("2023-01-15T10:30:00"))),
       ("extra", some (JValue.num 1))]]⟩
    (by simp) (by simp) (by decide) (by decide)).1

end Oreilly

